import Mathlib

/-!
# Formal model of the openwork plan-execution engine

This file is a shallow embedding, in Lean 4, of the core of the
`openwork` repository: the path sandbox and the legacy executor
(`src/executor/index.ts`), the plan schema validator
(`src/planner/validator.ts`), the safety layer (`src/safety`), the
step executor of the newer dialect, and the retry machinery of the
recovery manager (`src/error/recovery.ts`).  Filesystem state is made
explicit, wall-clock time and randomness are passed in as oracle
parameters, and JavaScript promises/exceptions become `Except` values.

String primitives are implemented over `List Char` so that every
definition evaluates inside the kernel on concrete inputs.
-/

namespace Openwork

/-! ## String primitives -/

/-- Split a character list at every `/`. -/
def splitOnSlash : List Char → List (List Char)
  | [] => [[]]
  | x :: xs =>
    if x = '/' then [] :: splitOnSlash xs
    else match splitOnSlash xs with
      | h :: t => (x :: h) :: t
      | [] => [[x]]

/-- Join segments with `/` separators. -/
def joinSlash : List (List Char) → List Char
  | [] => []
  | [s] => s
  | s :: rest => s ++ '/' :: joinSlash rest

/-- `pre` is a prefix of `s`. -/
def strStartsWith (s pre : String) : Bool := pre.data.isPrefixOf s.data

/-- `suf` is a suffix of `s`. -/
def strEndsWith (s suf : String) : Bool := suf.data.isSuffixOf s.data

/-- `sub` occurs somewhere in `l`. -/
def listContainsSub : List Char → List Char → Bool
  | [], sub => sub.isEmpty
  | l@(_ :: xs), sub => sub.isPrefixOf l || listContainsSub xs sub

/-- `sub` occurs somewhere in `s`. -/
def strContainsSub (s sub : String) : Bool := listContainsSub s.data sub.data

/-! ## POSIX path model

`path.resolve` and `path.join` from Node.js, restricted to what the
engine uses: absolute workspace bases and POSIX separators.  A path is
normalised by splitting on `/`, dropping empty and `.` segments, and
letting `..` pop the previous segment (a no-op at the root, as in
Node). -/

/-- Process path segments left to right keeping a reversed stack of the
segments seen so far; `..` pops, `.` and empty segments vanish. -/
def normSegs : List (List Char) → List (List Char) → List (List Char)
  | acc, [] => acc.reverse
  | acc, c :: cs =>
    if c = [] ∨ c = ['.'] then normSegs acc cs
    else if c = ['.', '.'] then normSegs acc.tail cs
    else normSegs (c :: acc) cs

/-- Normalise an absolute POSIX path string. -/
def normalizeAbs (s : String) : String :=
  ⟨'/' :: joinSlash (normSegs [] (splitOnSlash s.data))⟩

/-- `path.resolve(base, target)` for an absolute `base`: an absolute
`target` wins, otherwise `target` is appended to `base`, and the result
is normalised. -/
def pathResolve (base target : String) : String :=
  if strStartsWith target "/" then normalizeAbs target
  else normalizeAbs (base ++ "/" ++ target)

/-- `path.join(a, b)` for an absolute `a`: concatenation with a
separator followed by normalisation. -/
def pathJoin (a b : String) : String :=
  normalizeAbs (a ++ "/" ++ b)

/-- `path.dirname` of an absolute path: everything up to the last
separator. -/
def pathDirname (p : String) : String :=
  ⟨'/' :: joinSlash (normSegs [] (splitOnSlash p.data)).dropLast⟩

/-- Specification-side notion of containment from the sandbox contract:
the resolved path is lexically equal to the workspace or nested under
it (the workspace followed by a separator is a prefix of the path). -/
def withinWorkspace (base p : String) : Bool :=
  p = base || strStartsWith p (base ++ "/")

/-! ## Legacy dialect: data types

The older executor (`src/executor/index.ts`) works on plans of the
`{task, steps:[{action, ...}]}` dialect, validated by
`src/planner/validator.ts`.  Its `WorkspaceConfig`, `Action`,
`StepResult` and `ExecutionResult` types are reproduced here. -/

structure WorkspaceConfig where
  workingDirectory : String
  allowedPaths : List String
  maxSteps : Nat
  stepTimeout : Nat
  playwrightEnabled : Bool
  deriving Repr, DecidableEq

/-- The step kinds of the legacy plan DSL, with the fields each action
carries in the zod schema. -/
inductive Action where
  | readFiles (path : String) (pattern : Option String)
  | createFile (path content : String)
  | writeFile (path content : String)
  | moveFile (sourcePath destinationPath : String)
  | extractText (instructions : String)
  | runPlaywrightTask
  | noop (description : Option String)
  deriving Repr, DecidableEq

/-- The `action` tag of a step, as the string the source dispatches on. -/
def Action.tag : Action → String
  | .readFiles .. => "readFiles"
  | .createFile .. => "createFile"
  | .writeFile .. => "writeFile"
  | .moveFile .. => "moveFile"
  | .extractText .. => "extractText"
  | .runPlaywrightTask => "runPlaywrightTask"
  | .noop .. => "noop"

structure LegacyTaskPlan where
  task : String
  steps : List Action
  requiresConfirmation : Bool
  estimatedSteps : Option Nat := none
  deriving Repr, DecidableEq

/-- The value stored under `lastReadContent` in the executor's context
map: either one file's content or a list of `(file, content)` pairs. -/
inductive ReadContent where
  | single (content : String)
  | many (entries : List (String × String))
  deriving Repr, DecidableEq

/-- The JSON-ish values the legacy action handlers return. -/
inductive ActionOutput where
  | fileRead (file content : String)
  | filesRead (entries : List (String × String))
  | fileWritten (path : String) (bytesWritten : Nat)
  | moved (source dest : String)
  | extracted (instructions : String) (content : ReadContent) (note : String)
  | noopDone (description : Option String)
  deriving Repr, DecidableEq

structure StepResult where
  stepIndex : Nat
  action : String
  success : Bool
  output : Option ActionOutput
  error : Option String
  duration : Nat
  deriving Repr, DecidableEq

structure ExecutionResult where
  steps : List StepResult
  success : Bool
  totalDuration : Nat
  error : Option String
  deriving Repr, DecidableEq

/-- Explicit filesystem state: regular files as `(absolute path,
content)` pairs and a list of existing directories. -/
structure FS where
  files : List (String × String)
  dirs : List String
  deriving Repr, DecidableEq

/-- Content of the file at `p`, if one exists. -/
def FS.fileAt (fs : FS) (p : String) : Option String :=
  (fs.files.find? (fun e => e.1 = p)).map (·.2)

/-- Whether a directory exists at `p`. -/
def FS.dirAt (fs : FS) (p : String) : Bool := fs.dirs.contains p

/-- Write (create or overwrite) the file at `p`. -/
def FS.writeFile (fs : FS) (p content : String) : FS :=
  { fs with files := (p, content) :: fs.files.filter (fun e => ¬ e.1 = p) }

/-- Remove the file at `p`. -/
def FS.removeFile (fs : FS) (p : String) : FS :=
  { fs with files := fs.files.filter (fun e => ¬ e.1 = p) }

/-- `mkdir -p`: record the directory as existing. -/
def FS.mkdirp (fs : FS) (p : String) : FS :=
  if fs.dirs.contains p then fs else { fs with dirs := p :: fs.dirs }

/-- Mutable executor state: the filesystem plus the executor's context
map (whose only used key is `lastReadContent`). -/
structure ExecState where
  fs : FS
  lastReadContent : Option ReadContent
  deriving Repr, DecidableEq

/-! ## Legacy executor: path sandbox -/

/-- `Executor.isPathAllowed`: resolve against the working directory and
test containment with a plain string-prefix check, then check the
`allowedPaths` allow-list when it is non-empty. -/
def isPathAllowed (cfg : WorkspaceConfig) (targetPath : String) : Bool :=
  let resolvedPath := pathResolve cfg.workingDirectory targetPath
  if ¬ strStartsWith resolvedPath cfg.workingDirectory then false
  else if cfg.allowedPaths.length > 0 then
    cfg.allowedPaths.any (fun allowedPath =>
      strStartsWith resolvedPath (pathResolve cfg.workingDirectory allowedPath))
  else true

/-- `Executor.validatePath`: returns the resolved path, or throws an
`ExecutorError` naming the offending path. -/
def validatePath (cfg : WorkspaceConfig) (targetPath : String) :
    Except String String :=
  let resolvedPath := pathResolve cfg.workingDirectory targetPath
  if isPathAllowed cfg targetPath then .ok resolvedPath
  else .error ("Path \x22" ++ targetPath ++ "\x22 is outside allowed workspace boundaries")

/-! ## Legacy executor: action handlers

Each handler mirrors one `executeX` method.  A thrown exception
becomes `Except.error` carrying the message; filesystem errors use
Node-style `ENOENT` messages.  Only `*` wildcards of glob patterns are
modelled (a `*` never crosses a `/`), which covers every pattern the
planner emits. -/

/-- Glob matching of a pattern against a path, `*` matching any run of
characters other than `/`. -/
def globMatch : List Char → List Char → Bool
  | [], [] => true
  | [], _ :: _ => false
  | '*' :: ps, [] => globMatch ps []
  | '*' :: ps, c :: cs =>
    globMatch ps (c :: cs) || (¬ c = '/' && globMatch ('*' :: ps) cs)
  | _ :: _, [] => false
  | p :: ps, c :: cs => p = c && globMatch ps cs
  termination_by p s => (p.length, s.length)

/-- `Executor.executeReadFiles`: validate the path, then either read a
single file or glob the directory (default pattern `*`, files only). -/
def executeReadFiles (cfg : WorkspaceConfig) (path : String)
    (pattern : Option String) (st : ExecState) :
    Except String ActionOutput × ExecState :=
  match validatePath cfg path with
  | .error e => (.error e, st)
  | .ok resolvedPath =>
    match st.fs.fileAt resolvedPath with
    | some content =>
      (.ok (.fileRead resolvedPath content),
        { st with lastReadContent := some (.single content) })
    | none =>
      if st.fs.dirAt resolvedPath then
        let searchPattern := pathJoin resolvedPath (pattern.getD "*")
        let files := st.fs.files.filter
          (fun e => globMatch searchPattern.data e.1.data)
        (.ok (.filesRead files), { st with lastReadContent := some (.many files) })
      else
        (.error ("ENOENT: no such file or directory, stat '" ++ resolvedPath ++ "'"), st)

/-- `Executor.executeCreateFile`: validate, fail when something already
exists at the target, otherwise create the parent directory and the
file. -/
def executeCreateFile (cfg : WorkspaceConfig) (path content : String)
    (st : ExecState) : Except String ActionOutput × ExecState :=
  match validatePath cfg path with
  | .error e => (.error e, st)
  | .ok resolvedPath =>
    if (st.fs.fileAt resolvedPath).isSome || st.fs.dirAt resolvedPath then
      (.error ("File already exists: " ++ path), st)
    else
      let fs := (st.fs.mkdirp (pathDirname resolvedPath)).writeFile resolvedPath content
      (.ok (.fileWritten resolvedPath content.length), { st with fs := fs })

/-- `Executor.executeWriteFile`: validate, create the parent directory,
write (overwriting any existing file). -/
def executeWriteFile (cfg : WorkspaceConfig) (path content : String)
    (st : ExecState) : Except String ActionOutput × ExecState :=
  match validatePath cfg path with
  | .error e => (.error e, st)
  | .ok resolvedPath =>
    let fs := (st.fs.mkdirp (pathDirname resolvedPath)).writeFile resolvedPath content
    (.ok (.fileWritten resolvedPath content.length), { st with fs := fs })

/-- `Executor.executeMoveFile`: validate both endpoints, require the
source to exist, create the destination directory, rename. -/
def executeMoveFile (cfg : WorkspaceConfig) (sourcePath destinationPath : String)
    (st : ExecState) : Except String ActionOutput × ExecState :=
  match validatePath cfg sourcePath with
  | .error e => (.error e, st)
  | .ok sp =>
    match validatePath cfg destinationPath with
    | .error e => (.error e, st)
    | .ok dp =>
      match st.fs.fileAt sp with
      | none => (.error ("ENOENT: no such file or directory, access '" ++ sp ++ "'"), st)
      | some content =>
        let fs := ((st.fs.mkdirp (pathDirname dp)).removeFile sp).writeFile dp content
        (.ok (.moved sp dp), { st with fs := fs })

/-- `Executor.executeExtractText`: requires a previous `readFiles` to
have populated the context. -/
def executeExtractText (instructions : String) (st : ExecState) :
    Except String ActionOutput × ExecState :=
  match st.lastReadContent with
  | none => (.error "No content available to extract from. Run readFiles first.", st)
  | some content =>
    (.ok (.extracted instructions content
      "Text extraction would be done by LLM in full implementation"), st)

/-- `Executor.executeAction`: dispatch on the action tag. -/
def executeAction (cfg : WorkspaceConfig) (action : Action) (st : ExecState) :
    Except String ActionOutput × ExecState :=
  match action with
  | .readFiles path pattern => executeReadFiles cfg path pattern st
  | .createFile path content => executeCreateFile cfg path content st
  | .writeFile path content => executeWriteFile cfg path content st
  | .moveFile sp dp => executeMoveFile cfg sp dp st
  | .extractText instructions => executeExtractText instructions st
  | .noop description => (.ok (.noopDone description), st)
  | .runPlaywrightTask =>
    if ¬ cfg.playwrightEnabled then (.error "Playwright tasks are not enabled", st)
    else (.error "Playwright tasks not yet implemented", st)

/-! ## Legacy executor: per-step timeout race and the plan loop

`executeStep` races the dispatched promise against a timer of
`config.stepTimeout` milliseconds.  Wall-clock time is modelled by an
oracle `opDuration`, the time the dispatched operation takes; the timer
wins exactly when `stepTimeout < opDuration`.  `Promise.race` does not
cancel the loser, so the operation's state change still takes effect. -/

/-- `Executor.executeStep` of the legacy executor. -/
def executeStep (cfg : WorkspaceConfig) (action : Action) (stepIndex : Nat)
    (opDuration : Nat) (st : ExecState) : StepResult × ExecState :=
  let r := executeAction cfg action st
  if cfg.stepTimeout < opDuration then
    ({ stepIndex := stepIndex, action := action.tag, success := false,
       output := none, error := some s!"Step {stepIndex} timed out",
       duration := cfg.stepTimeout }, r.2)
  else
    match r.1 with
    | .ok out =>
      ({ stepIndex := stepIndex, action := action.tag, success := true,
         output := some out, error := none, duration := opDuration }, r.2)
    | .error e =>
      ({ stepIndex := stepIndex, action := action.tag, success := false,
         output := none, error := some e, duration := opDuration }, r.2)

/-- The sequential fail-fast loop of `Executor.executePlan`: execute
steps in order, append each result, and return early (with the
plan-level error message) at the first failure.  `oracle i` is the
duration of step `i`'s dispatched operation. -/
def runSteps (cfg : WorkspaceConfig) (oracle : Nat → Nat) :
    List Action → Nat → ExecState → List StepResult × Option String × ExecState
  | [], _, st => ([], none, st)
  | action :: rest, i, st =>
    let p := executeStep cfg action i (oracle i) st
    if p.1.success then
      let q := runSteps cfg oracle rest (i + 1) p.2
      (p.1 :: q.1, q.2.1, q.2.2)
    else
      let emsg := p.1.error.getD ""
      ([p.1], some s!"Step {i} failed: {emsg}", p.2)

/-- `Executor.executePlan`: reject plans beyond `maxSteps`, clear the
context, then run the fail-fast loop. -/
def executePlan (cfg : WorkspaceConfig) (plan : LegacyTaskPlan)
    (oracle : Nat → Nat) (fs : FS) : Except String ExecutionResult :=
  let maxSteps := cfg.maxSteps
  if plan.steps.length > cfg.maxSteps then
    .error s!"Plan exceeds maximum steps ({maxSteps})"
  else
    let r := runSteps cfg oracle plan.steps 0 { fs := fs, lastReadContent := none }
    match r.2.1 with
    | some e =>
      .ok { steps := r.1, success := false,
            totalDuration := (r.1.map (·.duration)).sum, error := some e }
    | none =>
      .ok { steps := r.1, success := true,
            totalDuration := (r.1.map (·.duration)).sum, error := none }

/-- Reference (specification-side) runner: execute every step in
declared order, never stopping, threading the state through. -/
def runAllSteps (cfg : WorkspaceConfig) (oracle : Nat → Nat) :
    List Action → Nat → ExecState → List StepResult × ExecState
  | [], _, st => ([], st)
  | action :: rest, i, st =>
    let p := executeStep cfg action i (oracle i) st
    let q := runAllSteps cfg oracle rest (i + 1) p.2
    (p.1 :: q.1, q.2)

/-- Specification-side truncation: keep results up to and including the
first one with `success = false`. -/
def truncAtFirstFailure (succ : α → Bool) : List α → List α
  | [] => []
  | r :: rs => if succ r then r :: truncAtFirstFailure succ rs else [r]

/-! ## Plan schema validator (`src/planner/validator.ts`)

The zod schemas constrain an untyped candidate plan; on an
already-typed `LegacyTaskPlan` they reduce to the `min(1)` refinements
on the required string fields and the non-emptiness of `steps`. -/

/-- The `min(1)` refinements of the per-action zod schemas. -/
def Action.fieldsValid : Action → Bool
  | .readFiles path _ => ¬ path = ""
  | .createFile path _ => ¬ path = ""
  | .writeFile path _ => ¬ path = ""
  | .moveFile sourcePath destinationPath => ¬ sourcePath = "" && ¬ destinationPath = ""
  | .extractText instructions => ¬ instructions = ""
  | .runPlaywrightTask => true
  | .noop _ => true

/-- Structural (zod) validity of a plan value. -/
def structurallyValid (plan : LegacyTaskPlan) : Bool :=
  ¬ plan.task = "" && ¬ plan.steps.isEmpty && plan.steps.all Action.fieldsValid

/-- `validatePlan`: zod parse, failing with the `PlanValidationError`
message. -/
def validatePlanSchema (plan : LegacyTaskPlan) : Except String LegacyTaskPlan :=
  if structurallyValid plan then .ok plan
  else .error "Invalid task plan structure"

/-- `isDestructiveAction`: exactly `writeFile`, `moveFile`,
`createFile`. -/
def isDestructiveAction (action : Action) : Bool :=
  action.tag = "writeFile" || action.tag = "moveFile" || action.tag = "createFile"

/-- `validateConfirmationFlag`: the plan-level flag must equal the
union of destructiveness over the steps. -/
def validateConfirmationFlag (plan : LegacyTaskPlan) : Bool :=
  plan.requiresConfirmation = plan.steps.any isDestructiveAction

/-- `validateStepLimits`. -/
def validateStepLimits (plan : LegacyTaskPlan) (maxSteps : Nat) : Bool :=
  plan.steps.length ≤ maxSteps

/-- `validateTaskPlan`: structure, then step limit, then confirmation
flag, with the source's error messages. -/
def validateTaskPlan (plan : LegacyTaskPlan) (maxSteps : Nat := 50) :
    Except String LegacyTaskPlan :=
  match validatePlanSchema plan with
  | .error e => .error e
  | .ok validatedPlan =>
    if ¬ validateStepLimits validatedPlan maxSteps then
      .error s!"Plan exceeds maximum step limit of {maxSteps}"
    else if ¬ validateConfirmationFlag validatedPlan then
      .error "Plan confirmation flag does not match presence of destructive actions"
    else
      .ok validatedPlan

/-! ## Newer dialect: steps and the safety layer (`src/safety`) -/

/-- The step kinds of the `{goal, steps:[{type, ...}]}` dialect, as the
`TaskStep.type` union in `src/types/index.ts`. -/
inductive StepType where
  | readFiles | writeFile | renameFile | createFolder
  | extractData | generateReport | browserAction
  deriving Repr, DecidableEq

/-- The `type` field as the string the source compares against. -/
def StepType.toStr : StepType → String
  | .readFiles => "readFiles"
  | .writeFile => "writeFile"
  | .renameFile => "renameFile"
  | .createFolder => "createFolder"
  | .extractData => "extractData"
  | .generateReport => "generateReport"
  | .browserAction => "browserAction"

/-- The `params` record of a step: the untyped mapping restricted to
the keys the executor reads, each optional as in the source. -/
structure StepParams where
  path : Option String := none
  extensions : Option (List String) := none
  filename : Option String := none
  content : Option String := none
  folders : Option (List String) := none
  pattern : Option String := none
  destination : Option String := none
  goal : Option String := none
  outputPath : Option String := none
  deriving Repr, DecidableEq

structure TaskStep where
  id : String
  type : StepType
  description : String
  params : StepParams
  requiresConfirmation : Option Bool := none
  timeout : Option Nat := none
  deriving Repr, DecidableEq

inductive RiskLevel where
  | low | medium | high
  deriving Repr, DecidableEq

def RiskLevel.toStr : RiskLevel → String
  | .low => "low"
  | .medium => "medium"
  | .high => "high"

structure SafetyCheck where
  isDestructive : Bool
  riskLevel : RiskLevel
  warnings : List String
  requiresConfirmation : Bool
  deriving Repr, DecidableEq

/-- The `destructiveOperations` list of `SafetyLayer.checkStep`
(verbatim from the source; `deleteFile` is not a representable step
type, so that entry never matches). -/
def destructiveOperations : List String :=
  ["writeFile", "renameFile", "deleteFile", "createFolder"]

/-- `SafetyLayer.assessRiskLevel`. -/
def assessRiskLevel (step : TaskStep) : RiskLevel :=
  if step.type = .readFiles then .low
  else if step.type = .extractData then .low
  else if step.type = .generateReport then .medium
  else if step.type = .createFolder then .medium
  else if ["writeFile", "renameFile"].contains step.type.toStr then .high
  else .medium

/-- `SafetyLayer.generateWarnings`. -/
def generateWarnings (step : TaskStep) : List String :=
  (if step.type = .writeFile then ["This will create or overwrite a file"] else [])
    ++ (if step.type = .renameFile then ["This will rename a file"] else [])
    ++ (if step.type = .createFolder then ["This will create a new directory"] else [])

/-- `SafetyLayer.checkStep`: destructiveness from the fixed list, risk
level and warnings from the tables, confirmation requirement as
`isDestructive || Boolean(step.requiresConfirmation)`. -/
def checkStep (step : TaskStep) : SafetyCheck :=
  let isDestructive := destructiveOperations.contains step.type.toStr
  { isDestructive := isDestructive
    riskLevel := assessRiskLevel step
    warnings := generateWarnings step
    requiresConfirmation := isDestructive || step.requiresConfirmation.getD false }

/-- `SafetyLayer.createDryRunLog`. -/
def createDryRunLog (step : TaskStep) : String :=
  "[DRY RUN] " ++ step.type.toStr ++ ": " ++ step.description
    ++ " (Risk: " ++ (checkStep step).riskLevel.toStr ++ ")"

/-! ## Newer dialect: the step executor

This models the `Executor` class of the newer dialect, whose
`executeStep` performs the safety check, the dry-run shortcut, the
confirmation gate and a dispatch on `step.type`.  The confirmation
answer, the dispatched operation's wall-clock duration and the report
timestamp are oracle inputs.  The content analyzer is an external
collaborator; its directory scan is modelled as the files lying under
the directory, its categorisation as the number of distinct file
extensions, and its duplicate search as content equality. -/

/-- Last path segment. -/
def basename (p : String) : String :=
  ⟨(normSegs [] (splitOnSlash p.data)).getLastD []⟩

structure ExecutionContext where
  workspace : String
  dryRun : Bool
  logs : List String
  confirmedSteps : List String := []
  deriving Repr, DecidableEq

/-- The JSON-ish values the newer dispatch targets return. -/
inductive StepOutput where
  | readOut (path : String) (files : List (String × String))
  | writeOut (filename path : String) (bytesWritten : Nat)
  | foldersOut (createdFolders : List String)
  | renameOut (source destination : String)
  | extractOut (totalFiles categories duplicates : Nat) (summary : String)
  | reportOut (content title format : String)
  deriving Repr, DecidableEq

structure ExecutorResult where
  stepId : String
  success : Bool
  output : Option StepOutput
  error : Option String
  duration : Nat
  deriving Repr, DecidableEq

/-- Oracle inputs of one step execution: the confirmation answer the
presentation layer would give, the dispatched operation's duration in
milliseconds, and the report timestamp. -/
structure StepOracle where
  confirm : Bool
  opDuration : Nat
  nowIso : String
  deriving Repr, DecidableEq

/-- Files lying strictly under a directory (the analyzer's recursive
scan). -/
def FS.filesUnder (fs : FS) (dir : String) : List (String × String) :=
  fs.files.filter (fun e => strStartsWith e.1 (dir ++ "/"))

/-- File extension: the part after the last dot of the base name, empty
when there is none. -/
def extOf (p : String) : String :=
  match (basename p).data.reverse.takeWhile (fun c => ¬ c = '.') with
  | l => if l.length = (basename p).data.length then "" else ⟨l.reverse⟩

/-- `executeReadFiles` of the newer executor: resolve `params.path`
(default `.`) against the workspace, list the directory, keep regular
files, and filter by `params.extensions` when given.  No workspace
boundary check is performed. -/
def nExecuteReadFiles (step : TaskStep) (ctx : ExecutionContext) (fs : FS) :
    Except String StepOutput × FS :=
  let path := pathResolve ctx.workspace (step.params.path.getD ".")
  if ¬ fs.dirAt path then
    (.error ("ENOENT: no such file or directory, scandir '" ++ path ++ "'"), fs)
  else
    let entries : List (String × String) :=
      fs.files.filter (fun e => pathDirname e.1 = path)
    let fileList : List (String × String) :=
      match step.params.extensions with
      | some extensions =>
        entries.filter (fun e => extensions.any (fun ext => strEndsWith (basename e.1) ext))
      | none => entries
    (.ok (.readOut path (fileList.map
      (fun e => (basename e.1, pathJoin path (basename e.1))))), fs)

/-- `executeWriteFile` of the newer executor: join the workspace with
`params.filename` (default `output.txt`) and write
`params.content` (default empty).  No workspace boundary check is
performed. -/
def nExecuteWriteFile (step : TaskStep) (ctx : ExecutionContext) (fs : FS) :
    Except String StepOutput × FS :=
  let filename := step.params.filename.getD "output.txt"
  let content := step.params.content.getD ""
  let filePath := pathJoin ctx.workspace filename
  (.ok (.writeOut filename filePath content.utf8ByteSize), fs.writeFile filePath content)

/-- `executeCreateFolder`: `mkdir -p` each entry of `params.folders`
under the workspace. -/
def nExecuteCreateFolder (step : TaskStep) (ctx : ExecutionContext) (fs : FS) :
    Except String StepOutput × FS :=
  let folders := step.params.folders.getD []
  let paths := folders.map (fun folder => pathJoin ctx.workspace folder)
  (.ok (.foldersOut paths), paths.foldl (fun acc p => acc.mkdirp p) fs)

/-- `executeRenameFile`: join the workspace with `params.pattern` and
`params.destination` and rename; a missing parameter is the `undefined`
that `join` rejects. -/
def nExecuteRenameFile (step : TaskStep) (ctx : ExecutionContext) (fs : FS) :
    Except String StepOutput × FS :=
  match step.params.pattern, step.params.destination with
  | some pattern, some destination =>
    let sourcePath := pathJoin ctx.workspace pattern
    let destPath := pathJoin ctx.workspace destination
    match fs.fileAt sourcePath with
    | none =>
      (.error ("ENOENT: no such file or directory, rename '" ++ sourcePath
        ++ "' -> '" ++ destPath ++ "'"), fs)
    | some content =>
      (.ok (.renameOut sourcePath destPath), (fs.removeFile sourcePath).writeFile destPath content)
  | _, _ =>
    (.error "The \x22path\x22 argument must be of type string. Received undefined", fs)

/-- `executeExtractData`: delegate to the analyzer over
`params.path` (default `.`) resolved against the workspace. -/
def nExecuteExtractData (step : TaskStep) (ctx : ExecutionContext) (fs : FS) :
    Except String StepOutput × FS :=
  let workspace := pathResolve ctx.workspace (step.params.path.getD ".")
  if ¬ fs.dirAt workspace then
    (.error ("ENOENT: no such file or directory, scandir '" ++ workspace ++ "'"), fs)
  else
    let analyzedFiles := fs.filesUnder workspace
    let categories := (analyzedFiles.map (fun e => extOf e.1)).dedup.length
    let duplicates := (analyzedFiles.filter
      (fun e => analyzedFiles.any (fun e2 => ¬ e2.1 = e.1 && e2.2 = e.2))).length
    let n := analyzedFiles.length
    (.ok (.extractOut n categories duplicates
      s!"Analysis complete: {n} files analyzed"), fs)

/-- The markdown body `executeGenerateReport` assembles (the source's
template literals escape the backslash, so the separators are the
two-character sequence `\n`). -/
def reportContent (goal nowIso : String) (totalFiles categories : Nat) : String :=
  "# Workspace Analysis Report\\n\\n"
    ++ s!"**Generated on:** {nowIso}\\n"
    ++ s!"**Goal:** {goal}\\n\\n"
    ++ s!"**Total Files:** {totalFiles}\\n"
    ++ s!"**Categories:** {categories}\\n\\n"

/-- `executeGenerateReport`: analyze the workspace, build the markdown
report, and persist it at `params.outputPath` (resolved against the
workspace) when that parameter is present. -/
def nExecuteGenerateReport (step : TaskStep) (ctx : ExecutionContext)
    (nowIso : String) (fs : FS) : Except String StepOutput × FS :=
  let goal := step.params.goal.getD "Generate report"
  if ¬ fs.dirAt ctx.workspace then
    (.error ("ENOENT: no such file or directory, scandir '" ++ ctx.workspace ++ "'"), fs)
  else
    let analyzedFiles := fs.filesUnder ctx.workspace
    let categories := (analyzedFiles.map (fun e => extOf e.1)).dedup.length
    let content := reportContent goal nowIso analyzedFiles.length categories
    let fs2 :=
      match step.params.outputPath with
      | some outputPath => fs.writeFile (pathResolve ctx.workspace outputPath) content
      | none => fs
    (.ok (.reportOut content "Workspace Analysis Report" "markdown"), fs2)

/-- The `switch (step.type)` dispatch of the newer `executeStep`; the
`browserAction` tag has no case and falls to the `default` throw. -/
def nDispatch (step : TaskStep) (ctx : ExecutionContext) (nowIso : String)
    (fs : FS) : Except String StepOutput × FS :=
  match step.type with
  | .readFiles => nExecuteReadFiles step ctx fs
  | .writeFile => nExecuteWriteFile step ctx fs
  | .createFolder => nExecuteCreateFolder step ctx fs
  | .renameFile => nExecuteRenameFile step ctx fs
  | .extractData => nExecuteExtractData step ctx fs
  | .generateReport => nExecuteGenerateReport step ctx nowIso fs
  | .browserAction => (.error "Unknown step type: browserAction", fs)

/-- `executeStep` of the newer executor: safety check, dry-run
shortcut, confirmation gate, dispatch; a thrown error is logged into
`context.logs` and reported as a failed result.  The durations of the
non-dispatch paths (safety check and prompt) are modelled as zero. -/
def nExecuteStep (step : TaskStep) (ctx : ExecutionContext) (o : StepOracle)
    (fs : FS) : ExecutorResult × ExecutionContext × FS :=
  let safetyCheck := checkStep step
  if ctx.dryRun then
    ({ stepId := step.id, success := true, output := none, error := none,
       duration := 0 }, ctx, fs)
  else if safetyCheck.requiresConfirmation && ¬ o.confirm then
    ({ stepId := step.id, success := false, output := none,
       error := some "User cancelled the operation", duration := 0 }, ctx, fs)
  else
    let r := nDispatch step ctx o.nowIso fs
    match r.1 with
    | .ok out =>
      ({ stepId := step.id, success := true, output := some out, error := none,
         duration := o.opDuration }, ctx, r.2)
    | .error e =>
      ({ stepId := step.id, success := false, output := none, error := some e,
         duration := o.opDuration },
       { ctx with logs := ctx.logs ++ ["❌ " ++ step.description ++ ": " ++ e] }, r.2)

/-- The step loop of the enhanced CLI runner (`executeTask` in
`index-enhanced.ts`): execute steps in declared order, push each
result, and break at the first failure unless `force` is set. -/
def runEnhancedSteps (force : Bool) (oracle : Nat → StepOracle) :
    List TaskStep → Nat → ExecutionContext → FS →
      List ExecutorResult × ExecutionContext × FS
  | [], _, ctx, fs => ([], ctx, fs)
  | step :: rest, i, ctx, fs =>
    let p := nExecuteStep step ctx (oracle i) fs
    if p.1.success || force then
      let q := runEnhancedSteps force oracle rest (i + 1) p.2.1 p.2.2
      (p.1 :: q.1, q.2)
    else
      ([p.1], p.2)

/-- Reference (specification-side) runner for the newer dialect:
execute every step, never stopping. -/
def runAllEnhancedSteps (oracle : Nat → StepOracle) :
    List TaskStep → Nat → ExecutionContext → FS →
      List ExecutorResult × ExecutionContext × FS
  | [], _, ctx, fs => ([], ctx, fs)
  | step :: rest, i, ctx, fs =>
    let p := nExecuteStep step ctx (oracle i) fs
    let q := runAllEnhancedSteps oracle rest (i + 1) p.2.1 p.2.2
    (p.1 :: q.1, q.2)

/-! ## Error taxonomy and the retry machinery (`src/error`)

`DefaultRecoveryManager.performRetry` either escalates (when the retry
counter for the error's key has reached `maxRetries`) or waits an
exponential-backoff delay with jitter, increments the counter, and
calls `retryOriginalOperation` — which, in this implementation, throws
a plain `Error` saying the retry mechanism is not implemented.
`Math.random()` is an oracle `rand ∈ [0, 1)`; delays are rationals in
milliseconds; the wait itself is recorded as an effect. -/

inductive ErrorCategory where
  | system | configuration | planning | execution | safety
  | ai | fileSystem | network | validation | userInput
  deriving Repr, DecidableEq

/-- The string values of the `ErrorCategory` enum. -/
def ErrorCategory.toStr : ErrorCategory → String
  | .system => "system"
  | .configuration => "configuration"
  | .planning => "planning"
  | .execution => "execution"
  | .safety => "safety"
  | .ai => "ai"
  | .fileSystem => "file_system"
  | .network => "network"
  | .validation => "validation"
  | .userInput => "user_input"

inductive ErrorSeverity where
  | low | medium | high | critical
  deriving Repr, DecidableEq

inductive ErrorRecoveryAction where
  | retry | fallback | abort | userIntervention | ignore | restart
  deriving Repr, DecidableEq

structure ErrorContext where
  operation : String
  step : Option String := none
  file : Option String := none
  workspace : Option String := none
  deriving Repr, DecidableEq

structure RecoveryStrategy where
  action : ErrorRecoveryAction
  maxRetries : Option Nat := none
  retryDelay : Option Nat := none
  userMessage : Option String := none
  requiresConfirmation : Option Bool := none
  deriving Repr, DecidableEq

structure CoworkError where
  name : String := "CoworkError"
  message : String
  category : ErrorCategory
  severity : ErrorSeverity
  context : ErrorContext
  recoveryStrategy : RecoveryStrategy
  retryable : Bool
  userFriendly : Bool
  deriving Repr, DecidableEq

/-- The `default` branch of `ErrorFactory.createError`, reached for
`ErrorCategory.SYSTEM`: a bare `CoworkError` with the fallback abort
strategy and `userFriendly` defaulting to `true`. -/
def createSystemError (message : String) (context : ErrorContext)
    (severity : ErrorSeverity) (retryable : Bool) : CoworkError :=
  { message := message
    category := .system
    severity := severity
    context := context
    recoveryStrategy :=
      { action := .abort, userMessage := some "An unexpected error occurred." }
    retryable := retryable
    userFriendly := true }

/-- JavaScript `x || d` on an optional number: `undefined` and `0` both
fall back to the default. -/
def jsOrNat (x : Option Nat) (d : Nat) : Nat :=
  match x with
  | some n => if n = 0 then d else n
  | none => d

/-- `DefaultRecoveryManager.getRetryKey`: the non-empty components of
`(category, operation, step, file)` joined with `:`. -/
def getRetryKey (error : CoworkError) : String :=
  String.intercalate ":"
    (([error.category.toStr, error.context.operation,
       error.context.step.getD "", error.context.file.getD ""]).filter
      (fun part => ¬ part = ""))

/-- The retry-counter table of one manager instance. -/
def lookupCounter (counters : List (String × Nat)) (key : String) : Nat :=
  (((counters.find? (fun e => e.1 = key))).map (·.2)).getD 0

def setCounter (counters : List (String × Nat)) (key : String) (v : Nat) :
    List (String × Nat) :=
  (key, v) :: counters.filter (fun e => ¬ e.1 = key)

/-- `calculateRetryDelay`: exponential backoff `base * 2 ^ attempt`
plus a jitter of `rand * 10%` of it, capped at 30000 ms. -/
def calculateRetryDelay (attempt : Nat) (baseDelay : ℚ) (rand : ℚ) : ℚ :=
  let exponentialDelay := baseDelay * 2 ^ attempt
  let jitter := rand * (1 / 10) * exponentialDelay
  min (exponentialDelay + jitter) 30000

/-- What one call to `performRetry` does: the thrown value, the updated
counter table, and the backoff wait it performed, if any. -/
inductive RetryOutcome where
  | escalated (e : CoworkError)
  | notImplemented (message : String)
  deriving Repr, DecidableEq

structure RetryTrace where
  outcome : RetryOutcome
  counters : List (String × Nat)
  waited : Option ℚ
  deriving Repr, DecidableEq

/-- `DefaultRecoveryManager.performRetry`: escalate to a `system`-category
error once the counter reaches `maxRetries` (default 3); otherwise
compute the backoff delay (base default 1000 ms), increment the
counter, wait, and invoke `retryOriginalOperation`, which throws its
not-implemented error. -/
def performRetry (error : CoworkError) (strategy : RecoveryStrategy)
    (counters : List (String × Nat)) (rand : ℚ) : RetryTrace :=
  let retryKey := getRetryKey error
  let currentRetries := lookupCounter counters retryKey
  let maxRetries := jsOrNat strategy.maxRetries 3
  let op := error.context.operation
  if currentRetries ≥ maxRetries then
    { outcome := .escalated (createSystemError
        s!"Maximum retries ({maxRetries}) exceeded for {op}"
        error.context .high false)
      counters := counters
      waited := none }
  else
    let retryDelay := calculateRetryDelay currentRetries
      (jsOrNat strategy.retryDelay 1000 : Nat) rand
    { outcome := .notImplemented s!"Retry mechanism not implemented for operation: {op}"
      counters := setCounter counters retryKey (currentRetries + 1)
      waited := some retryDelay }

/-! ## Helper lemmas -/

theorem isPrefixOf_append_of_isPrefixOf (p a b : List Char)
    (h : p.isPrefixOf a = true) : p.isPrefixOf (a ++ b) = true := by
  rw [List.isPrefixOf_iff_prefix] at *
  exact h.trans (List.prefix_append a b)

theorem listContainsSub_of_isPrefixOf (l sub : List Char)
    (h : sub.isPrefixOf l = true) : listContainsSub l sub = true := by
  cases l with
  | nil =>
    cases sub with
    | nil => simp [listContainsSub]
    | cons c cs => simp [List.isPrefixOf] at h
  | cons x xs => simp [listContainsSub, h]

theorem strStartsWith_append (s rest pre : String)
    (h : strStartsWith s pre = true) : strStartsWith (s ++ rest) pre = true := by
  simpa [strStartsWith] using
    isPrefixOf_append_of_isPrefixOf pre.data s.data rest.data h

theorem strContainsSub_of_startsWith (s sub : String)
    (h : strStartsWith s sub = true) : strContainsSub s sub = true :=
  listContainsSub_of_isPrefixOf s.data sub.data h

/-- The fail-fast loop of the legacy `executePlan` produces exactly the
reference run's results truncated at the first failure. -/
theorem runSteps_eq_trunc (cfg : WorkspaceConfig) (oracle : Nat → Nat) :
    ∀ (steps : List Action) (i : Nat) (st : ExecState),
      (runSteps cfg oracle steps i st).1 =
        truncAtFirstFailure (fun r => r.success)
          (runAllSteps cfg oracle steps i st).1 := by
  intro steps
  induction steps with
  | nil => intro i st; rfl
  | cons a rest ih =>
    intro i st
    simp only [runSteps, runAllSteps, truncAtFirstFailure]
    by_cases h : (executeStep cfg a i (oracle i) st).1.success
    · simp [h, ih]
    · simp [h]

/-- The enhanced CLI loop without `--force` produces exactly the
reference run's results truncated at the first failure. -/
theorem runEnhancedSteps_eq_trunc (oracle : Nat → StepOracle) :
    ∀ (steps : List TaskStep) (i : Nat) (ctx : ExecutionContext) (fs : FS),
      (runEnhancedSteps false oracle steps i ctx fs).1 =
        truncAtFirstFailure (fun r => r.success)
          (runAllEnhancedSteps oracle steps i ctx fs).1 := by
  intro steps
  induction steps with
  | nil => intro i ctx fs; rfl
  | cons s rest ih =>
    intro i ctx fs
    simp only [runEnhancedSteps, runAllEnhancedSteps, truncAtFirstFailure]
    by_cases h : (nExecuteStep s ctx (oracle i) fs).1.success
    · simp [h, ih]
    · simp [h]

/-! ## Specification-side definitions

These name the spec's wording, to be compared with the definitions
taken from the source. -/

/-- The fixed risk table of the safety-gate contract, one row per step
type.  The claim's table covers the six planning step kinds; the
seventh representable tag (`browserAction`) takes the dispatch-default
row of the source (medium risk, non-destructive, no warning).  The
resulting confirmation requirement is `isDestructive OR the explicit
step override`. -/
def specSafetyTable (t : StepType) (override : Option Bool) : SafetyCheck :=
  let destructive :=
    match t with
    | .writeFile | .renameFile | .createFolder => true
    | _ => false
  { isDestructive := destructive
    riskLevel :=
      match t with
      | .readFiles | .extractData => .low
      | .generateReport | .createFolder => .medium
      | .writeFile | .renameFile => .high
      | .browserAction => .medium
    warnings :=
      match t with
      | .createFolder => ["This will create a new directory"]
      | .writeFile => ["This will create or overwrite a file"]
      | .renameFile => ["This will rename a file"]
      | _ => []
    requiresConfirmation := destructive || override.getD false }

/-! ## Claim C1: the sandbox boundary check -/

/-- Workspace configuration exhibiting the sandbox prefix bug. -/
def siblingCfg : WorkspaceConfig :=
  { workingDirectory := "/home/user/work", allowedPaths := [], maxSteps := 50,
    stepTimeout := 30000, playwrightEnabled := false }

/-- Claim C1 (code bug): path validation is claimed to fail exactly
when the resolved path lies outside the workspace, and in particular to
reject sibling directories that merely share the workspace's string
prefix.  The source checks `resolvedPath.startsWith(workingDirectory)`
on the raw strings, so for workspace `/home/user/work` the target
`../work-evil` resolves to the sibling `/home/user/work-evil`, is
accepted by `isPathAllowed`, and `validatePath` returns it — although
it is neither the workspace nor nested under it. -/
theorem c1_validatePath_accepts_prefix_sibling :
    validatePath siblingCfg "../work-evil" = .ok "/home/user/work-evil"
    ∧ isPathAllowed siblingCfg "../work-evil" = true
    ∧ withinWorkspace "/home/user/work" "/home/user/work-evil" = false := by
  exact ⟨rfl, by decide, by decide⟩

/-! ## Claim C2: dispatch targets and the boundary check -/

/-- A `writeFile` step whose `filename` climbs out of the workspace. -/
def escapeStep : TaskStep :=
  { id := "s1", type := .writeFile, description := "write a file",
    params := { filename := some "../evil.txt", content := some "x" } }

def escapeCtx : ExecutionContext :=
  { workspace := "/ws", dryRun := false, logs := [] }

/-- The run of the escaping step with confirmation granted. -/
def escapeRun : ExecutorResult × ExecutionContext × FS :=
  nExecuteStep escapeStep escapeCtx
    { confirm := true, opDuration := 5, nowIso := "" }
    { files := [], dirs := ["/ws"] }

/-- Claim C2 (code bug): the dispatch targets of the newer step
executor are claimed to resolve every path through the
workspace-boundary check before any read or write, rejecting steps that
name a path outside the workspace.  `executeWriteFile` joins the
workspace with the step's `filename` without any boundary check: the
step with `filename = "../evil.txt"` in workspace `/ws` succeeds and
writes the file at `/evil.txt`, which is outside the workspace. -/
theorem c2_writeFile_escapes_workspace :
    escapeRun.1.success = true
    ∧ escapeRun.1.error = none
    ∧ escapeRun.2.2.fileAt "/evil.txt" = some "x"
    ∧ withinWorkspace "/ws" "/evil.txt" = false := by
  exact ⟨by decide, by decide, by decide, by decide⟩

/-! ## Claim C3: dry-run purity -/

/-- Claim C3 (confirmed): with `context.dryRun` set, `executeStep`
reports success with no output and performs no side effect at all: the
result is the fixed dry-run result, and the context and the filesystem
are returned unchanged, for every step. -/
theorem c3_dry_run_pure (step : TaskStep) (ctx : ExecutionContext)
    (o : StepOracle) (fs : FS) (h : ctx.dryRun = true) :
    nExecuteStep step ctx o fs =
      ({ stepId := step.id, success := true, output := none, error := none,
         duration := 0 }, ctx, fs) := by
  simp [nExecuteStep, h]

/-- Witness for C3: a destructive `writeFile` step under dry run leaves
an empty workspace empty. -/
theorem c3_dry_run_pure_witness :
    ({ workspace := "/ws", dryRun := true, logs := [] } : ExecutionContext).dryRun = true
    ∧ nExecuteStep
        { id := "w1", type := .writeFile, description := "write",
          params := { filename := some "out.txt", content := some "hi" } }
        { workspace := "/ws", dryRun := true, logs := [] }
        { confirm := true, opDuration := 7, nowIso := "" }
        { files := [], dirs := ["/ws"] } =
      ({ stepId := "w1", success := true, output := none, error := none,
         duration := 0 },
       { workspace := "/ws", dryRun := true, logs := [] },
       { files := [], dirs := ["/ws"] }) :=
  ⟨rfl, c3_dry_run_pure _ _ _ _ rfl⟩

/-! ## Claim C4: refused confirmation -/

/-- Claim C4 (confirmed): when the safety check requires confirmation
and the confirmation request returns `false`, `executeStep` reports
`success = false` with the exact error `"User cancelled the operation"`
and performs no side effect: context and filesystem come back
unchanged. -/
theorem c4_refused_confirmation_no_side_effect (step : TaskStep)
    (ctx : ExecutionContext) (o : StepOracle) (fs : FS)
    (hdry : ctx.dryRun = false)
    (hreq : (checkStep step).requiresConfirmation = true)
    (hans : o.confirm = false) :
    nExecuteStep step ctx o fs =
      ({ stepId := step.id, success := false, output := none,
         error := some "User cancelled the operation", duration := 0 }, ctx, fs) := by
  simp [nExecuteStep, hdry, hreq, hans]

/-- Witness for C4: a refused `writeFile` step writes nothing — the
file `out.txt` it would have produced does not exist afterwards. -/
theorem c4_refused_confirmation_witness :
    ({ workspace := "/ws", dryRun := false, logs := [] } : ExecutionContext).dryRun = false
    ∧ (checkStep
        { id := "w2", type := .writeFile, description := "write",
          params := { filename := some "out.txt", content := some "hi" } }).requiresConfirmation = true
    ∧ ({ confirm := false, opDuration := 7, nowIso := "" } : StepOracle).confirm = false
    ∧ nExecuteStep
        { id := "w2", type := .writeFile, description := "write",
          params := { filename := some "out.txt", content := some "hi" } }
        { workspace := "/ws", dryRun := false, logs := [] }
        { confirm := false, opDuration := 7, nowIso := "" }
        { files := [], dirs := ["/ws"] } =
      ({ stepId := "w2", success := false, output := none,
         error := some "User cancelled the operation", duration := 0 },
       { workspace := "/ws", dryRun := false, logs := [] },
       { files := [], dirs := ["/ws"] })
    ∧ (FS.fileAt { files := [], dirs := ["/ws"] } "/ws/out.txt") = none :=
  ⟨rfl, by decide, rfl, c4_refused_confirmation_no_side_effect _ _ _ _ rfl (by decide) rfl,
    by decide⟩

/-! ## Claim C9: the safety risk table -/

/-- Claim C9 (confirmed): `checkStep` is a pure function of the step's
`type` and explicit `requiresConfirmation` override, returning exactly
the fixed risk table — `readFiles`/`extractData` low and
non-destructive, `generateReport` medium and non-destructive,
`createFolder` medium and destructive warning "This will create a new
directory", `writeFile` high and destructive warning "This will create
or overwrite a file", `renameFile` high and destructive warning "This
will rename a file" — and the resulting confirmation requirement is
always the destructiveness OR the explicit override. -/
theorem c9_checkStep_matches_risk_table (step : TaskStep) :
    checkStep step = specSafetyTable step.type step.requiresConfirmation := by
  obtain ⟨sid, ty, desc, params, override, tmo⟩ := step
  cases ty <;> rfl

/-! ## Claim C6: destructive steps force the confirmation flag -/

/-- Claim C6 (confirmed): for every structurally valid plan of the
legacy dialect that is within the step limit, contains at least one
destructive step (`createFile`, `writeFile` or `moveFile`) and declares
`requiresConfirmation = false`, `validateTaskPlan` fails with the
confirmation-mismatch error, whose message contains the word
"confirmation". -/
theorem c6_destructive_plan_needs_flag (plan : LegacyTaskPlan) (maxSteps : Nat)
    (hstruct : structurallyValid plan = true)
    (hlen : plan.steps.length ≤ maxSteps)
    (hdest : plan.steps.any isDestructiveAction = true)
    (hflag : plan.requiresConfirmation = false) :
    validateTaskPlan plan maxSteps =
      .error "Plan confirmation flag does not match presence of destructive actions"
    ∧ strContainsSub
        "Plan confirmation flag does not match presence of destructive actions"
        "confirmation" = true := by
  refine ⟨?_, by decide⟩
  simp [validateTaskPlan, validatePlanSchema, hstruct, validateStepLimits, hlen,
    validateConfirmationFlag, hdest, hflag]

/-- Witness for C6: a one-step `writeFile` plan declaring no need for
confirmation is rejected. -/
theorem c6_destructive_plan_needs_flag_witness :
    structurallyValid
      { task := "save a note", steps := [.writeFile "note.txt" "hi"],
        requiresConfirmation := false } = true
    ∧ ({ task := "save a note", steps := [.writeFile "note.txt" "hi"],
         requiresConfirmation := false } : LegacyTaskPlan).steps.length ≤ 50
    ∧ ({ task := "save a note", steps := [.writeFile "note.txt" "hi"],
         requiresConfirmation := false } : LegacyTaskPlan).steps.any isDestructiveAction = true
    ∧ ({ task := "save a note", steps := [.writeFile "note.txt" "hi"],
         requiresConfirmation := false } : LegacyTaskPlan).requiresConfirmation = false
    ∧ (validateTaskPlan
        { task := "save a note", steps := [.writeFile "note.txt" "hi"],
          requiresConfirmation := false } 50 =
        .error "Plan confirmation flag does not match presence of destructive actions"
      ∧ strContainsSub
          "Plan confirmation flag does not match presence of destructive actions"
          "confirmation" = true) :=
  ⟨by decide, by decide, by decide, rfl,
    c6_destructive_plan_needs_flag _ 50 (by decide) (by decide) (by decide) rfl⟩

/-! ## Claim C10: the confirmation check is an exact equality -/

/-- Claim C10 (confirmed): the validator requires exact equality
between the plan-level flag and the union of destructiveness, so a
structurally valid plan within the step limit whose flag is `true`
while none of its steps is destructive is also rejected with the same
confirmation-mismatch error. -/
theorem c10_overcautious_flag_rejected (plan : LegacyTaskPlan) (maxSteps : Nat)
    (hstruct : structurallyValid plan = true)
    (hlen : plan.steps.length ≤ maxSteps)
    (hdest : plan.steps.any isDestructiveAction = false)
    (hflag : plan.requiresConfirmation = true) :
    validateTaskPlan plan maxSteps =
      .error "Plan confirmation flag does not match presence of destructive actions" := by
  simp [validateTaskPlan, validatePlanSchema, hstruct, validateStepLimits, hlen,
    validateConfirmationFlag, hdest, hflag]

/-- Witness for C10: a read-only plan that nevertheless asks for
confirmation fails validation. -/
theorem c10_overcautious_flag_rejected_witness :
    structurallyValid
      { task := "inspect", steps := [.readFiles "." none],
        requiresConfirmation := true } = true
    ∧ ({ task := "inspect", steps := [.readFiles "." none],
         requiresConfirmation := true } : LegacyTaskPlan).steps.length ≤ 50
    ∧ ({ task := "inspect", steps := [.readFiles "." none],
         requiresConfirmation := true } : LegacyTaskPlan).steps.any isDestructiveAction = false
    ∧ ({ task := "inspect", steps := [.readFiles "." none],
         requiresConfirmation := true } : LegacyTaskPlan).requiresConfirmation = true
    ∧ validateTaskPlan
        { task := "inspect", steps := [.readFiles "." none],
          requiresConfirmation := true } 50 =
        .error "Plan confirmation flag does not match presence of destructive actions" :=
  ⟨by decide, by decide, by decide, rfl,
    c10_overcautious_flag_rejected _ 50 (by decide) (by decide) (by decide) rfl⟩

/-! ## Claim C5: sequential fail-fast plan execution -/

/-- Claim C5 (confirmed): the full-plan runner executes steps strictly
in declared order, one at a time, appending one result per executed
step, and its result sequence is exactly the reference sequential run
truncated at the first failing step — so no step after the first
failure is ever executed or reordered.  This covers the legacy
`executePlan` (for any plan within the step limit) and the enhanced
CLI step loop in its default (no `--force`) mode. -/
theorem c5_plan_runner_fail_fast (cfg : WorkspaceConfig)
    (plan : LegacyTaskPlan) (oracle : Nat → Nat) (fs : FS)
    (stepsN : List TaskStep) (oracleN : Nat → StepOracle)
    (ctx : ExecutionContext) (fsN : FS)
    (hlen : plan.steps.length ≤ cfg.maxSteps) :
    (executePlan cfg plan oracle fs).map (fun res => res.steps)
      = .ok (truncAtFirstFailure (fun r => r.success)
          (runAllSteps cfg oracle plan.steps 0 { fs := fs, lastReadContent := none }).1)
    ∧ (runEnhancedSteps false oracleN stepsN 0 ctx fsN).1 =
        truncAtFirstFailure (fun r => r.success)
          (runAllEnhancedSteps oracleN stepsN 0 ctx fsN).1 := by
  constructor
  · have hgt : ¬ plan.steps.length > cfg.maxSteps := by omega
    have htr := runSteps_eq_trunc cfg oracle plan.steps 0
      { fs := fs, lastReadContent := none }
    cases herr : (runSteps cfg oracle plan.steps 0 { fs := fs, lastReadContent := none }).2.1 with
    | none => simp [executePlan, hgt, herr, Except.map, htr]
    | some e => simp [executePlan, hgt, herr, Except.map, htr]
  · exact runEnhancedSteps_eq_trunc oracleN stepsN 0 ctx fsN

/-- Constant one-millisecond duration oracle for the fail-fast witness. -/
def oneMsOracle : Nat → Nat := fun _ => 1

/-- Constant oracle for the enhanced-loop half of the fail-fast witness. -/
def plainOracle : Nat → StepOracle := fun _ => { confirm := true, opDuration := 1, nowIso := "" }

/-- A three-step demo plan whose middle step reads a missing file. -/
def failFastPlan : LegacyTaskPlan :=
  { task := "demo", requiresConfirmation := false,
    steps := [.noop none, .readFiles "missing.txt" none, .noop none] }

def failFastCfg : WorkspaceConfig :=
  { workingDirectory := "/ws", allowedPaths := [], maxSteps := 50,
    stepTimeout := 30000, playwrightEnabled := false }

/-- A demo step list for the enhanced-loop half of the witness. -/
def failFastSteps : List TaskStep :=
  [{ id := "n1", type := .readFiles, description := "list", params := {} },
   { id := "n2", type := .renameFile, description := "rename", params := {} },
   { id := "n3", type := .readFiles, description := "list again", params := {} }]

def failFastCtx : ExecutionContext := { workspace := "/ws", dryRun := false, logs := [] }

def failFastFS : FS := { files := [], dirs := ["/ws"] }

/-- Witness for C5: on a plan whose second step fails, both runners
stop right after that step. -/
theorem c5_plan_runner_fail_fast_witness :
    failFastPlan.steps.length ≤ failFastCfg.maxSteps
    ∧ ((executePlan failFastCfg failFastPlan oneMsOracle failFastFS).map (fun res => res.steps)
        = .ok (truncAtFirstFailure (fun r => r.success)
            (runAllSteps failFastCfg oneMsOracle failFastPlan.steps 0
              { fs := failFastFS, lastReadContent := none }).1)
      ∧ (runEnhancedSteps false plainOracle failFastSteps 0 failFastCtx failFastFS).1 =
          truncAtFirstFailure (fun r => r.success)
            (runAllEnhancedSteps plainOracle failFastSteps 0 failFastCtx failFastFS).1) :=
  ⟨by decide,
    c5_plan_runner_fail_fast failFastCfg failFastPlan oneMsOracle failFastFS
      failFastSteps plainOracle failFastCtx failFastFS (by decide)⟩

/-! ## Claim C7: retry recovery -/

/-- A filesystem error configured for retry recovery. -/
def retryErr : CoworkError :=
  { message := "EBUSY: resource busy", category := .fileSystem, severity := .medium,
    context := { operation := "readFile", file := some "/ws/a.txt" },
    recoveryStrategy := { action := .retry, maxRetries := some 3, retryDelay := some 1000 },
    retryable := true, userFriendly := true }

/-- Counterexample to C7 as stated: with the retry budget not yet
exhausted, `performRetry` is claimed to re-invoke the original failed
operation; instead `retryOriginalOperation` throws "Retry mechanism not
implemented", after waiting the backoff delay and incrementing the
counter.  No re-invocation of the original operation ever happens. -/
theorem c7_retry_never_reinvokes :
    performRetry retryErr retryErr.recoveryStrategy [] 0 =
      { outcome := .notImplemented "Retry mechanism not implemented for operation: readFile",
        counters := [("file_system:readFile:/ws/a.txt", 1)],
        waited := some 1000 } := by
  simp [performRetry, retryErr, getRetryKey, lookupCounter, setCounter, jsOrNat,
    calculateRetryDelay, min_def]
  norm_num
  exact ⟨by decide, by decide⟩

/-- Claim C7 (corrected): for an error whose strategy is retry, when
the counter keyed by `(category, operation, step, file)` is at or above
`maxRetries` (default 3), `performRetry` escalates by raising a
terminal `system`-category error (high severity, not retryable, abort
strategy) and touches neither counters nor the clock; otherwise it
waits `base * 2 ^ attempt` plus a jitter of `rand * 10%` of that delay
(so at most 10% of it for `0 ≤ rand < 1`), capped at 30 seconds,
increments the counter — and then, instead of re-invoking the original
failed operation as claimed, raises the plain error "Retry mechanism
not implemented for operation: ...". -/
theorem c7_retry_escalates_or_backs_off (error : CoworkError)
    (strategy : RecoveryStrategy) (counters : List (String × Nat)) (rand : ℚ)
    (h0 : 0 ≤ rand) (h1 : rand < 1) :
    (lookupCounter counters (getRetryKey error) ≥ jsOrNat strategy.maxRetries 3 →
      performRetry error strategy counters rand =
        { outcome := .escalated (createSystemError
            ("Maximum retries (" ++ toString (jsOrNat strategy.maxRetries 3)
              ++ ") exceeded for " ++ error.context.operation)
            error.context .high false),
          counters := counters, waited := none })
    ∧ (lookupCounter counters (getRetryKey error) < jsOrNat strategy.maxRetries 3 →
      performRetry error strategy counters rand =
        { outcome := .notImplemented
            ("Retry mechanism not implemented for operation: " ++ error.context.operation),
          counters := setCounter counters (getRetryKey error)
            (lookupCounter counters (getRetryKey error) + 1),
          waited := some (min ((jsOrNat strategy.retryDelay 1000 : ℚ) *
              2 ^ lookupCounter counters (getRetryKey error)
            + rand * (1 / 10) * ((jsOrNat strategy.retryDelay 1000 : ℚ) *
              2 ^ lookupCounter counters (getRetryKey error))) 30000) }
      ∧ 0 ≤ rand * (1 / 10) * ((jsOrNat strategy.retryDelay 1000 : ℚ) *
          2 ^ lookupCounter counters (getRetryKey error))
      ∧ 10 * (rand * (1 / 10) * ((jsOrNat strategy.retryDelay 1000 : ℚ) *
          2 ^ lookupCounter counters (getRetryKey error)))
        ≤ (jsOrNat strategy.retryDelay 1000 : ℚ) *
            2 ^ lookupCounter counters (getRetryKey error)) := by
  have hE : (0 : ℚ) ≤ (jsOrNat strategy.retryDelay 1000 : ℚ) *
      2 ^ lookupCounter counters (getRetryKey error) := by positivity
  constructor
  · intro hge
    simp only [performRetry]
    rw [if_pos hge]
    simp [toString]
  · intro hlt
    have hnle : ¬ (lookupCounter counters (getRetryKey error) ≥
        jsOrNat strategy.maxRetries 3) := not_le.mpr hlt
    refine ⟨?_, ?_, ?_⟩
    · simp only [performRetry]
      rw [if_neg hnle]
      simp [calculateRetryDelay, toString]
    · exact mul_nonneg (mul_nonneg h0 (by norm_num)) hE
    · have h2 : rand * ((jsOrNat strategy.retryDelay 1000 : ℚ) *
          2 ^ lookupCounter counters (getRetryKey error))
          ≤ (jsOrNat strategy.retryDelay 1000 : ℚ) *
            2 ^ lookupCounter counters (getRetryKey error) :=
        mul_le_of_le_one_left hE h1.le
      calc 10 * (rand * (1 / 10) * ((jsOrNat strategy.retryDelay 1000 : ℚ) *
              2 ^ lookupCounter counters (getRetryKey error)))
          = rand * ((jsOrNat strategy.retryDelay 1000 : ℚ) *
              2 ^ lookupCounter counters (getRetryKey error)) := by ring
        _ ≤ _ := h2

/-- Witness for C7: a first retry of the filesystem error waits
1000 ms, sets its counter to 1 and raises the not-implemented error. -/
theorem c7_retry_escalates_or_backs_off_witness :
    (0 : ℚ) ≤ 0 ∧ (0 : ℚ) < 1
    ∧ lookupCounter [] (getRetryKey retryErr) < jsOrNat retryErr.recoveryStrategy.maxRetries 3
    ∧ (performRetry retryErr retryErr.recoveryStrategy [] 0 =
        { outcome := .notImplemented
            ("Retry mechanism not implemented for operation: " ++ retryErr.context.operation),
          counters := setCounter [] (getRetryKey retryErr)
            (lookupCounter [] (getRetryKey retryErr) + 1),
          waited := some (min ((jsOrNat retryErr.recoveryStrategy.retryDelay 1000 : ℚ) *
              2 ^ lookupCounter [] (getRetryKey retryErr)
            + 0 * (1 / 10) * ((jsOrNat retryErr.recoveryStrategy.retryDelay 1000 : ℚ) *
              2 ^ lookupCounter [] (getRetryKey retryErr))) 30000) }
      ∧ 0 ≤ 0 * (1 / 10) * ((jsOrNat retryErr.recoveryStrategy.retryDelay 1000 : ℚ) *
          2 ^ lookupCounter [] (getRetryKey retryErr))
      ∧ 10 * (0 * (1 / 10) * ((jsOrNat retryErr.recoveryStrategy.retryDelay 1000 : ℚ) *
          2 ^ lookupCounter [] (getRetryKey retryErr)))
        ≤ (jsOrNat retryErr.recoveryStrategy.retryDelay 1000 : ℚ) *
            2 ^ lookupCounter [] (getRetryKey retryErr)) :=
  ⟨le_refl 0, by norm_num, by decide,
    (c7_retry_escalates_or_backs_off retryErr retryErr.recoveryStrategy [] 0
      (le_refl 0) (by norm_num)).2 (by decide)⟩

/-! ## Claim C8: per-step timeouts -/

/-- A read step carrying the planner-assigned 5-second timeout. -/
def noTimeoutStep : TaskStep :=
  { id := "r1", type := .readFiles, description := "read files", params := {},
    timeout := some 5000 }

/-- The run of that step when the dispatched operation takes 10^9 ms. -/
def noTimeoutRun : ExecutorResult × ExecutionContext × FS :=
  nExecuteStep noTimeoutStep { workspace := "/ws", dryRun := false, logs := [] }
    { confirm := true, opDuration := 1000000000, nowIso := "" }
    { files := [], dirs := ["/ws"] }

/-- Counterexample to C8 as stated: the newer executor never races the
dispatched operation against `step.timeout` — a read step whose
operation takes 10^9 ms against a 5000 ms step timeout still reports
success and no error, so "exceeding the timeout yields a timeout
failure" is false for the executor the claim cites. -/
theorem c8_new_executor_never_times_out :
    noTimeoutStep.timeout = some 5000
    ∧ noTimeoutRun.1.duration = 1000000000
    ∧ noTimeoutRun.1.success = true
    ∧ noTimeoutRun.1.error = none := by
  exact ⟨rfl, by decide, by decide, by decide⟩

/-- Claim C8 (corrected): only the legacy executor races the dispatched
operation against a timeout, and the deadline is the single configured
`stepTimeout` — the same for every action type, not a per-type default
and not the step's own `timeout` field.  When the configured timeout
elapses before the operation completes, the step's result is a failure
whose error is "Step {i} timed out" and whose duration is the elapsed
time (the timeout value). -/
theorem c8_legacy_uniform_timeout_race (cfg : WorkspaceConfig) (action : Action)
    (stepIndex opDuration : Nat) (st : ExecState)
    (h : cfg.stepTimeout < opDuration) :
    (executeStep cfg action stepIndex opDuration st).1 =
      { stepIndex := stepIndex, action := action.tag, success := false,
        output := none, error := some s!"Step {stepIndex} timed out",
        duration := cfg.stepTimeout } := by
  simp [executeStep, h]

/-- Witness for C8: with a 5 ms configured timeout, a 10 ms `noop`
operation times out with the fixed message and duration 5. -/
theorem c8_legacy_uniform_timeout_race_witness :
    ({ workingDirectory := "/ws", allowedPaths := [], maxSteps := 50,
       stepTimeout := 5, playwrightEnabled := false } : WorkspaceConfig).stepTimeout < 10
    ∧ (executeStep
        { workingDirectory := "/ws", allowedPaths := [], maxSteps := 50,
          stepTimeout := 5, playwrightEnabled := false }
        (.noop none) 0 10
        { fs := { files := [], dirs := ["/ws"] }, lastReadContent := none }).1 =
      { stepIndex := 0, action := "noop", success := false, output := none,
        error := some "Step 0 timed out", duration := 5 } :=
  ⟨by decide,
    c8_legacy_uniform_timeout_race
      { workingDirectory := "/ws", allowedPaths := [], maxSteps := 50,
        stepTimeout := 5, playwrightEnabled := false }
      (.noop none) 0 10
      { fs := { files := [], dirs := ["/ws"] }, lastReadContent := none }
      (by decide)⟩

end Openwork
